import Mathlib

/-!
Verification development for the cobra-prompt package (Go).

The file shallowly embeds the data model and the operations of
src/cobra-prompt.go: the suggestion resolver (findSuggestions), the
tokenizer (parseArgsWithQuotes, parseArgs), the executor (Executor), the
bootstrap (prepare) and the loop entry points (Run, RunContext).

Modelling conventions:
* Go strings are Lean String; character classes are modelled at the
  ASCII level (the inputs of interest are ASCII).
* pflag.Flag is a record; its Value is kept as its string
  representation, DefValue likewise, so Value.Set is an assignment of
  the value field. Setting the value through Value.Set does NOT touch
  the Changed field, exactly as in pflag.
* The external cobra command tree and the go-prompt renderer are
  modelled at their interface boundary as the spec describes: CommandNode
  carries name, short description, hidden bit, local and inherited flag
  lists, annotations, and children; Document carries the current line and
  the word before the cursor (go-prompt derives the latter from the line
  and the cursor position).
* In-place mutation of the resolved node flag sets by findSuggestions is
  made explicit: the function returns the updated node next to the
  suggestion list. The InitDefaultHelpFlag side effect on child nodes is
  omitted from the state component; it only ever adds a help flag to
  children and touches neither the resolved node flags nor the
  suggestion list.
* A Go runtime panic is modelled as Option.none of the function result.
-/

namespace Cobraprompt

/-- Model of pflag.Flag: long name, one-character shorthand, current value
(string representation), default value, changed-since-set bit, hidden bit
and usage string. -/
structure Flag where
  name : String
  shorthand : String
  value : String
  defValue : String
  changed : Bool
  hidden : Bool
  usage : String
deriving DecidableEq

/-- Model of prompt.Suggest: a display text and a description. -/
structure Suggest where
  text : String
  description : String
deriving DecidableEq

/-- Model of prompt.Document at the interface used by the code: the
current input line and the word fragment immediately before the cursor. -/
structure Document where
  currentLine : String
  wordBeforeCursor : String

/-- Observable steps the Executor can take on a submitted line. -/
inductive ExecStep where
  | restoreTermios
  | startDemoTask
  | tokenizeLine (args : List String)
  | dispatchExecute (args : List String)
  | reportError (msg : String)
  | callOnError
  | exitProcess (code : Nat)
deriving DecidableEq

/-- Model of a cobra command node at the interface boundary: name, short
description, hidden bit, local flags, inherited flags, annotations,
the DisableDefaultCmd completion option, and child commands. -/
inductive CommandNode : Type where
  | mk (name short : String) (hidden : Bool)
      (localFlags inheritedFlags : List Flag)
      (annotations : List (String × String))
      (completionDisabled : Bool)
      (children : List CommandNode) : CommandNode

def CommandNode.name : CommandNode → String
  | .mk n _ _ _ _ _ _ _ => n

def CommandNode.short : CommandNode → String
  | .mk _ s _ _ _ _ _ _ => s

def CommandNode.hidden : CommandNode → Bool
  | .mk _ _ h _ _ _ _ _ => h

def CommandNode.localFlags : CommandNode → List Flag
  | .mk _ _ _ lf _ _ _ _ => lf

def CommandNode.inheritedFlags : CommandNode → List Flag
  | .mk _ _ _ _ ihf _ _ _ => ihf

def CommandNode.annotations : CommandNode → List (String × String)
  | .mk _ _ _ _ _ a _ _ => a

def CommandNode.completionDisabled : CommandNode → Bool
  | .mk _ _ _ _ _ _ cd _ => cd

def CommandNode.children : CommandNode → List CommandNode
  | .mk _ _ _ _ _ _ _ ch => ch

/-- Replace the two flag sets of a node (the shape of the in-place flag
mutation findSuggestions performs on the resolved node). -/
def CommandNode.withFlagSets : CommandNode → List Flag → List Flag → CommandNode
  | .mk n s h _ _ a cd ch, lf, ihf => .mk n s h lf ihf a cd ch

def CommandNode.withChildren : CommandNode → List CommandNode → CommandNode
  | .mk n s h lf ihf a cd _, ch => .mk n s h lf ihf a cd ch

def CommandNode.withLocalFlags : CommandNode → List Flag → CommandNode
  | .mk n s h _ ihf a cd ch, lf => .mk n s h lf ihf a cd ch

def CommandNode.withCompletionDisabled : CommandNode → CommandNode
  | .mk n s h lf ihf a _ ch => .mk n s h lf ihf a true ch

/-- Model of the CobraPrompt configuration struct. Function-valued hooks
are Option values, none modelling a nil Go function field. -/
structure CobraPrompt where
  rootCmd : CommandNode
  goPromptOptions : List String
  dynamicSuggestionsFunc : Option (String → Document → List Suggest)
  persistFlagValues : Bool
  showHelpCommandAndFlags : Bool
  disableCompletionCommand : Bool
  showHiddenCommands : Bool
  showHiddenFlags : Bool
  addDefaultExitCommand : Bool
  onErrorFunc : Option (String → List ExecStep)
  inArgsParser : Option (String → List String)
  suggestionFilter : Option (List Suggest → Document → List Suggest)

/-- The reserved persistence flag name (source constant
PersistFlagValuesFlag). -/
def PersistFlagValuesFlag : String := "persist-flag-values"

/-- The reserved dynamic-suggestion key (source constant with suffix
DynamicSuggestions plus the key word for a note on a command; renamed here
because of lexical constraints of this development). -/
def DynamicSuggestionsKey : String := "cobra-prompt-dynamic-suggestions"

/-- ASCII model of the whitespace class used by strings.Fields and by the
regexp escape for spaces in Go. -/
def isGoSpace (c : Char) : Bool :=
  c == ' ' || c == '\t' || c == '\n' || c == '\x0b' || c == '\x0c' || c == '\r'

/-- Model of strings.HasPrefix: the second argument is a leading piece of
the first. -/
def strStartsWith (s pre : String) : Bool :=
  pre.data.isPrefixOf s.data

/-- Model of strings.ToUpper at the ASCII level. -/
def goToUpper (s : String) : String :=
  String.mk (s.data.map Char.toUpper)

/-- Accumulator pass for the model of strings.Fields. -/
def fieldsAux : List Char → List Char → List String
  | [], acc => if acc.isEmpty then [] else [String.mk acc.reverse]
  | c :: rest, acc =>
    if isGoSpace c then
      (if acc.isEmpty then [] else [String.mk acc.reverse]) ++ fieldsAux rest []
    else fieldsAux rest (c :: acc)

/-- Model of strings.Fields: split on whitespace runs, dropping empties. -/
def fields (s : String) : List String := fieldsAux s.data []

/-- Longest leading run of characters other than a double quote, with the
remainder (the greedy character class inside the quoted alternative of the
tokenizer regular expression). -/
def takeNonQuote : List Char → List Char × List Char
  | [] => ([], [])
  | c :: rest =>
    if c == '"' then ([], c :: rest)
    else ((c :: (takeNonQuote rest).1), (takeNonQuote rest).2)

/-- Longest leading run of non-space characters, with the remainder (the
greedy non-space alternative of the tokenizer regular expression). -/
def takeNonSpace : List Char → List Char × List Char
  | [] => ([], [])
  | c :: rest =>
    if isGoSpace c then ([], c :: rest)
    else ((c :: (takeNonSpace rest).1), (takeNonSpace rest).2)

/-- Successive leftmost matches of the regular expression used by
parseArgsWithQuotes: a quoted alternative (quote, one or more non-quotes,
quote), tried first, else a maximal non-space run. Structural fuel keeps
the recursion kernel-computable; every emitted match and every skipped
space consumes at least one character, so fuel equal to the input length
plus one is never exhausted. -/
def goMatchesAux : Nat → List Char → List (List Char)
  | 0, _ => []
  | _, [] => []
  | fuel + 1, c :: rest =>
    if isGoSpace c then goMatchesAux fuel rest
    else if c == '"' then
      match (takeNonQuote rest).2 with
      | '"' :: rem2 =>
        if (takeNonQuote rest).1.isEmpty then
          ('"' :: (takeNonSpace rest).1) :: goMatchesAux fuel (takeNonSpace rest).2
        else ('"' :: (takeNonQuote rest).1 ++ ['"']) :: goMatchesAux fuel rem2
      | _ => ('"' :: (takeNonSpace rest).1) :: goMatchesAux fuel (takeNonSpace rest).2
    else (c :: (takeNonSpace rest).1) :: goMatchesAux fuel (takeNonSpace rest).2

/-- All regular-expression matches of the tokenizer over the input. -/
def goMatches (l : List Char) : List (List Char) :=
  goMatchesAux (l.length + 1) l

/-- The quote-stripping step applied to one regular-expression match:
when the match both starts and ends with a double quote the code slices
away the first and last byte; on the one-character match consisting of a
bare quote that slice has bounds 1 and 0 and the Go program panics, which
the model renders as none. -/
def stripQuotes (m : List Char) : Option (List Char) :=
  if m.head? == some '"' && m.getLast? == some '"' then
    if m.length == 1 then none
    else some ((m.drop 1).dropLast)
  else some m

/-- Model of parseArgsWithQuotes: find all regular-expression matches,
then strip surrounding quotes from each; none models the runtime panic of
the slice expression on a bare-quote match. -/
def parseArgsWithQuotes (input : String) : Option (List String) :=
  (goMatches input.data).mapM (fun m => (stripQuotes m).map String.mk)

/-- Model of CobraPrompt.parseArgs: the custom parser when configured,
else the quote-aware default. -/
def parseArgs (co : CobraPrompt) (input : String) : Option (List String) :=
  match co.inArgsParser with
  | some p => some (p input)
  | none => parseArgsWithQuotes input

/-- Lookup of a child by name (the external tree traversal step; cobra
findNext, modelled at the interface boundary with exact-name matching). -/
def findNext (n : CommandNode) (tok : String) : Option CommandNode :=
  n.children.find? (fun c => c.name == tok)

/-- Inner walk of the external best-match traversal: consume leading
tokens that name a child, stop at the first token that does not. The
boolean records whether any child was entered (the found node has a
parent). -/
def innerfind : CommandNode → List String → Bool → CommandNode × List String × Bool
  | n, [], descended => (n, [], descended)
  | n, a :: rest, descended =>
    match findNext n a with
    | some child => innerfind child rest true
    | none => (n, a :: rest, descended)

/-- Model of the external cobra Command.Find at its interface boundary:
best-match walk, then the legacy check that reports the distinguishable
unknown-command condition exactly when the walk stayed at a root that has
subcommands while tokens were left over. -/
def cobraFind (root : CommandNode) (args : List String) :
    Except Unit (CommandNode × List String) :=
  match innerfind root args false with
  | (found, rest, descended) =>
    if !descended && !found.children.isEmpty && !rest.isEmpty then
      Except.error ()
    else Except.ok (found, rest)

/-- The node a resolution call works on: the best match for the
whitespace fields of the current line, the root when Find reports an
error (findSuggestions keeps the root command in that case). -/
def resolvedCommand (co : CobraPrompt) (d : Document) : CommandNode :=
  match cobraFind co.rootCmd (fields d.currentLine) with
  | Except.ok (found, _) => found
  | Except.error _ => co.rootCmd

/-- Model of pflag FlagSet.GetBool with the ignored error: value of the
named boolean flag, false when the flag is absent. -/
def getBoolFlag (flags : List Flag) (flagName : String) : Bool :=
  match flags.find? (fun f => f.name == flagName) with
  | some f => f.value == "true"
  | none => false

/-- The persistence read of findSuggestions: GetBool of the reserved flag
over the full flag set of the node (local and inherited), false when the
flag is absent. -/
def nodePersist (n : CommandNode) : Bool :=
  getBoolFlag (n.localFlags ++ n.inheritedFlags) PersistFlagValuesFlag

/-- Annotation lookup with the Go map default of the empty string. -/
def annotValue (n : CommandNode) (key : String) : String :=
  match n.annotations.find? (fun p => p.1 == key) with
  | some p => p.2
  | none => ""

/-- The per-flag reset of the addFlags closure: a changed flag is set
back to its default value when persistence is off. Only the value field
is written; pflag Value.Set does not clear the Changed bit. -/
def resetFlag (persist : Bool) (f : Flag) : Flag :=
  if f.changed && !persist then { f with value := f.defValue } else f

/-- The addFlags closure of findSuggestions applied to one flag: reset
first, then skip hidden flags (unless shown), then emit a long-form
suggestion when the word before the cursor carries two dashes, else a
shorthand suggestion when it carries one dash and the flag has a
shorthand. Returns the updated flag and the emitted suggestions. -/
def addFlag (showHiddenFlags persist : Bool) (wbc : String) (f : Flag) :
    Flag × List Suggest :=
  let f2 := resetFlag persist f
  if f2.hidden && !showHiddenFlags then (f2, [])
  else if strStartsWith wbc "--" then
    (f2, [{ text := "--" ++ f2.name, description := f2.usage }])
  else if strStartsWith wbc "-" && f2.shorthand != "" then
    (f2, [{ text := "-" ++ f2.shorthand, description := f2.usage }])
  else (f2, [])

/-- VisitAll over a flag list with the addFlags closure: updated flags
and emitted suggestions in declaration order. -/
def visitFlags (showHiddenFlags persist : Bool) (wbc : String) :
    List Flag → List Flag × List Suggest
  | [] => ([], [])
  | f :: rest =>
    ((addFlag showHiddenFlags persist wbc f).1 ::
        (visitFlags showHiddenFlags persist wbc rest).1,
      (addFlag showHiddenFlags persist wbc f).2 ++
        (visitFlags showHiddenFlags persist wbc rest).2)

/-- Model of cobra HasAvailableSubCommands at the interface boundary:
some child is not hidden. -/
def hasAvailableSubCommands (n : CommandNode) : Bool :=
  n.children.any (fun c => !c.hidden)

/-- The child-suggestion loop of findSuggestions: guarded by
hasAvailableSubCommands, a child is emitted exactly when the source
condition holds, namely the child is not hidden AND ShowHiddenCommands is
not set. -/
def commandSuggestions (co : CobraPrompt) (n : CommandNode) : List Suggest :=
  if hasAvailableSubCommands n then
    n.children.filterMap (fun c =>
      if !c.hidden && !co.showHiddenCommands then
        some { text := c.name, description := c.short }
      else none)
  else []

/-- Model of go-prompt filterSuggestions: keep the suggestions whose text
satisfies the match function against the typed fragment, both upper-cased
when case is ignored; an empty fragment keeps everything. -/
def filterSuggestions (suggestions : List Suggest) (sub : String)
    (ignoreCase : Bool) (f : String → String → Bool) : List Suggest :=
  if sub == "" then suggestions
  else
    suggestions.filter (fun s =>
      f (if ignoreCase then goToUpper s.text else s.text)
        (if ignoreCase then goToUpper sub else sub))

/-- Model of go-prompt FilterHasPrefix. -/
def FilterHasPrefix (completions : List Suggest) (sub : String)
    (ignoreCase : Bool) : List Suggest :=
  filterSuggestions completions sub ignoreCase strStartsWith

/-- Model of findSuggestions. The Go function mutates the resolved node
flag sets in place; the model returns the updated node next to the
suggestion list. Steps, in source order: resolve the node from the
whitespace fields of the line with fallback to the root; read the
persistence flag from the node flag set (local and inherited, absent
means false); visit local then inherited flags with the addFlags closure;
append child-command suggestions; append dynamic suggestions when the
callback is configured and the annotation is nonempty; hand the list to
the custom filter when configured, else apply the case-ignoring prefix
filter on the word before the cursor. -/
def findSuggestions (co : CobraPrompt) (d : Document) :
    List Suggest × CommandNode :=
  let command := resolvedCommand co d
  let persist := nodePersist command
  let lf := (visitFlags co.showHiddenFlags persist d.wordBeforeCursor
      command.localFlags).1
  let s1 := (visitFlags co.showHiddenFlags persist d.wordBeforeCursor
      command.localFlags).2
  let ihf := (visitFlags co.showHiddenFlags persist d.wordBeforeCursor
      command.inheritedFlags).1
  let s2 := (visitFlags co.showHiddenFlags persist d.wordBeforeCursor
      command.inheritedFlags).2
  let base := s1 ++ s2 ++ commandSuggestions co command
  let withDyn :=
    match co.dynamicSuggestionsFunc with
    | some dyn =>
      if annotValue command DynamicSuggestionsKey != "" then
        base ++ dyn (annotValue command DynamicSuggestionsKey) d
      else base
    | none => base
  let final :=
    match co.suggestionFilter with
    | some filt => filt withDyn d
    | none => FilterHasPrefix withDyn d.wordBeforeCursor true
  (final, command.withFlagSets lf ihf)

/-- The flag-state effect of one resolution call on the resolved node. -/
def resetNodeFlags (n : CommandNode) : CommandNode :=
  n.withFlagSets
    (n.localFlags.map (resetFlag (nodePersist n)))
    (n.inheritedFlags.map (resetFlag (nodePersist n)))

/-- Model of the package-level completer installed into the renderer:
filter an empty suggestion list by the word before the cursor. -/
def completer (d : Document) : List Suggest :=
  FilterHasPrefix [] d.wordBeforeCursor true

/-- Observable behaviour of Executor on a submitted line: restore the
saved terminal attributes; on the literal input test, start the demo
cancellation task; nothing else happens on any input. -/
def executorTrace (input : String) : List ExecStep :=
  if input == "test" then [ExecStep.restoreTermios, ExecStep.startDemoTask]
  else [ExecStep.restoreTermios]

/-- The injected exit command of prepare. -/
def exitCommand : CommandNode :=
  CommandNode.mk "exit" "Exit prompt" false [] [] [] false []

/-- The default cobra help command added by InitDefaultHelpCmd, modelled
at the interface boundary. -/
def helpCommand : CommandNode :=
  CommandNode.mk "help" "Help about any command" false [] [] [] false []

/-- Model of cobra InitDefaultHelpCmd: add the help command once, and
only when the root has subcommands. -/
def initDefaultHelpCmd (root : CommandNode) : CommandNode :=
  if root.children.isEmpty then root
  else if root.children.any (fun c => c.name == "help") then root
  else root.withChildren (root.children ++ [helpCommand])

/-- The reserved persistence flag as registered by prepare: boolean, no
shorthand, default false. -/
def persistFlag : Flag :=
  { name := PersistFlagValuesFlag, shorthand := "", value := "false",
    defValue := "false", changed := false, hidden := false,
    usage := "Persist last given value for flags" }

/-- Model of CobraPrompt.prepare: optionally register the default help
command, disable the built-in completion command, add the exit command,
and register the reserved persistence flag on the root. -/
def prepare (co : CobraPrompt) : CommandNode :=
  let r0 := co.rootCmd
  let r1 := if co.showHelpCommandAndFlags then initDefaultHelpCmd r0 else r0
  let r2 := if co.disableCompletionCommand then r1.withCompletionDisabled else r1
  let r3 := if co.addDefaultExitCommand then
      r2.withChildren (r2.children ++ [exitCommand]) else r2
  if co.persistFlagValues then
    r3.withLocalFlags (r3.localFlags ++ [persistFlag])
  else r3

/-- The prompt application a RunContext call assembles before entering
the render loop: the prepared tree, the executor callback, the completion
callback, and the pass-through renderer options. -/
structure PromptSession where
  preparedRoot : CommandNode
  execFn : String → List ExecStep
  complFn : Document → List Suggest
  promptOptions : List String

/-- Model of RunContext: prepare the tree, save the terminal snapshot,
and hand Executor and completer to prompt.New together with the
pass-through options. The ctx parameter is part of the signature and is
taken over any type. -/
def runContext {Ctx : Type} (co : CobraPrompt) (_ctx : Ctx) : PromptSession :=
  { preparedRoot := prepare co
    execFn := executorTrace
    complFn := completer
    promptOptions := co.goPromptOptions }

/-- Model of Run: RunContext with the nil context. -/
def run (co : CobraPrompt) : PromptSession :=
  runContext co (none : Option Unit)

theorem resetFlag_true (f : Flag) : resetFlag true f = f := by
  simp [resetFlag]

theorem resetFlag_changed (p : Bool) (f : Flag) :
    (resetFlag p f).changed = f.changed := by
  unfold resetFlag
  split <;> rfl

theorem resetFlag_idem (p : Bool) (f : Flag) :
    resetFlag p (resetFlag p f) = resetFlag p f := by
  unfold resetFlag
  by_cases h : (f.changed && !p) = true <;> simp [h]

theorem map_resetFlag_true (l : List Flag) : l.map (resetFlag true) = l := by
  induction l with
  | nil => rfl
  | cons f rest ih => simp [resetFlag_true, ih]

theorem map_resetFlag_idem (p : Bool) (l : List Flag) :
    (l.map (resetFlag p)).map (resetFlag p) = l.map (resetFlag p) := by
  induction l with
  | nil => rfl
  | cons f rest ih => simp [resetFlag_idem, ih]

theorem withFlagSets_localFlags (n : CommandNode) (lf ihf : List Flag) :
    (n.withFlagSets lf ihf).localFlags = lf := by
  cases n
  rfl

theorem withFlagSets_inheritedFlags (n : CommandNode) (lf ihf : List Flag) :
    (n.withFlagSets lf ihf).inheritedFlags = ihf := by
  cases n
  rfl

theorem withFlagSets_self (n : CommandNode) :
    n.withFlagSets n.localFlags n.inheritedFlags = n := by
  cases n
  rfl

theorem withFlagSets_withFlagSets (n : CommandNode) (a b c d : List Flag) :
    (n.withFlagSets a b).withFlagSets c d = n.withFlagSets c d := by
  cases n
  rfl

theorem addFlag_fst (sh p : Bool) (w : String) (f : Flag) :
    (addFlag sh p w f).1 = resetFlag p f := by
  simp only [addFlag]
  by_cases h1 : ((resetFlag p f).hidden && !sh) = true <;>
    by_cases h2 : strStartsWith w "--" = true <;>
      by_cases h3 : (strStartsWith w "-" && (resetFlag p f).shorthand != "") = true <;>
        simp [h1, h2, h3]

theorem visitFlags_fst (sh p : Bool) (w : String) (l : List Flag) :
    (visitFlags sh p w l).1 = l.map (resetFlag p) := by
  induction l with
  | nil => rfl
  | cons f rest ih => simp [visitFlags, addFlag_fst, ih]

/-- The state component of a resolution call is exactly the flag reset of
the resolved node. -/
theorem findSuggestions_snd (co : CobraPrompt) (d : Document) :
    (findSuggestions co d).2 = resetNodeFlags (resolvedCommand co d) := by
  simp only [findSuggestions, resetNodeFlags, visitFlags_fst]

/-- One resolution call is a fixed point of the flag reset: a second call
that visits the same node leaves the flag state untouched. -/
theorem resetNodeFlags_localFlags (n : CommandNode) :
    (resetNodeFlags n).localFlags = n.localFlags.map (resetFlag (nodePersist n)) := by
  unfold resetNodeFlags
  exact withFlagSets_localFlags n _ _

theorem resetNodeFlags_inheritedFlags (n : CommandNode) :
    (resetNodeFlags n).inheritedFlags =
      n.inheritedFlags.map (resetFlag (nodePersist n)) := by
  unfold resetNodeFlags
  exact withFlagSets_inheritedFlags n _ _

theorem resetNodeFlags_idem (n : CommandNode) :
    resetNodeFlags (resetNodeFlags n) = resetNodeFlags n := by
  have hl := resetNodeFlags_localFlags n
  have hi := resetNodeFlags_inheritedFlags n
  conv_lhs => rw [resetNodeFlags]
  by_cases hq : nodePersist (resetNodeFlags n) = true
  · rw [hq, map_resetFlag_true, map_resetFlag_true, withFlagSets_self]
  · rw [Bool.not_eq_true] at hq
    rw [hq]
    by_cases hp : nodePersist n = true
    · exfalso
      have : nodePersist (resetNodeFlags n) = nodePersist n := by
        unfold nodePersist
        rw [hl, hi, hp, map_resetFlag_true, map_resetFlag_true]
      rw [hp] at this
      rw [this] at hq
      simp at hq
    · rw [Bool.not_eq_true] at hp
      rw [hp] at hl hi
      rw [hl, hi, map_resetFlag_idem, map_resetFlag_idem, ← hl, ← hi,
        withFlagSets_self]

theorem strStartsWith_empty (s : String) : strStartsWith s "" = true := by
  simp [strStartsWith]

theorem goToUpper_empty : goToUpper "" = "" := rfl

/-- Every suggestion the case-ignoring prefix filter keeps has the typed
fragment as a case-insensitive leading piece of its text. -/
theorem mem_FilterHasPrefix (l : List Suggest) (sub : String) (s : Suggest)
    (hs : s ∈ FilterHasPrefix l sub true) :
    strStartsWith (goToUpper s.text) (goToUpper sub) = true := by
  unfold FilterHasPrefix filterSuggestions at hs
  by_cases h : sub = ""
  · subst h
    rw [goToUpper_empty]
    exact strStartsWith_empty _
  · have hbeq : (sub == "") = false := by
      simp [h]
    rw [hbeq] at hs
    simp only [Bool.false_eq_true, if_false, if_true] at hs
    exact (List.mem_filter.mp hs).2

/-- A configuration with every toggle off and every hook absent, over the
given root. -/
def basePrompt (root : CommandNode) : CobraPrompt :=
  { rootCmd := root, goPromptOptions := [], dynamicSuggestionsFunc := none,
    persistFlagValues := false, showHelpCommandAndFlags := false,
    disableCompletionCommand := false, showHiddenCommands := false,
    showHiddenFlags := false, addDefaultExitCommand := false,
    onErrorFunc := none, inArgsParser := none, suggestionFilter := none }

/-- A changed boolean flag away from its default, for the persistence
counterexample. -/
def c1Flag : Flag :=
  { name := "verbose", shorthand := "v", value := "true",
    defValue := "false", changed := true, hidden := false,
    usage := "verbose output" }

def c1Root : CommandNode :=
  CommandNode.mk "root" "root command" false [c1Flag] [] [] false []

def c1Prompt : CobraPrompt := basePrompt c1Root

def c1Doc : Document := { currentLine := "", wordBeforeCursor := "" }

/-- Claim C1, counterexample: at a node whose persistence flag is absent
and whose single local flag is changed, a resolution call resets the flag
value to its default but the changed bit is still set afterwards, while
the claim demands that the changed bit be reset as well. -/
theorem c1Counterexample :
    nodePersist c1Root = false
    ∧ c1Flag.changed = true
    ∧ (findSuggestions c1Prompt c1Doc).2.localFlags.map Flag.value = ["false"]
    ∧ (findSuggestions c1Prompt c1Doc).2.localFlags.map Flag.changed = [true] :=
  ⟨rfl, rfl, rfl, rfl⟩

/-- Claim C1, amended: a resolution call applies exactly the reset pass to
the resolved node; with persistence disabled every changed flag has its
value reset to the default while its changed bit is left set; and the
reset pass is idempotent, so a second resolution with no intervening
execution yields identical flag state. -/
theorem c1FlagResetAmended (co : CobraPrompt) (d : Document) :
    (findSuggestions co d).2 = resetNodeFlags (resolvedCommand co d)
    ∧ resetNodeFlags ((findSuggestions co d).2) = (findSuggestions co d).2
    ∧ (∀ n : CommandNode, nodePersist n = false →
        (resetNodeFlags n).localFlags = n.localFlags.map (resetFlag false)
        ∧ (resetNodeFlags n).inheritedFlags =
            n.inheritedFlags.map (resetFlag false))
    ∧ (∀ f : Flag, f.changed = true →
        (resetFlag false f).value = f.defValue
        ∧ (resetFlag false f).changed = true) := by
  refine ⟨findSuggestions_snd co d, ?_, ?_, ?_⟩
  · rw [findSuggestions_snd]
    exact resetNodeFlags_idem _
  · intro n hn
    rw [resetNodeFlags_localFlags, resetNodeFlags_inheritedFlags, hn]
    exact ⟨rfl, rfl⟩
  · intro f hf
    unfold resetFlag
    simp [hf]

/-- Claim C1, witness: the amended statement instantiated on the concrete
changed flag and node, every hypothesis discharged by computation. -/
theorem c1Witness :
    (findSuggestions c1Prompt c1Doc).2 =
      resetNodeFlags (resolvedCommand c1Prompt c1Doc)
    ∧ (resetFlag false c1Flag).value = c1Flag.defValue
    ∧ (resetFlag false c1Flag).changed = true
    ∧ (resetNodeFlags c1Root).localFlags = c1Root.localFlags.map (resetFlag false)
    ∧ resetNodeFlags ((findSuggestions c1Prompt c1Doc).2) =
        (findSuggestions c1Prompt c1Doc).2 :=
  ⟨(c1FlagResetAmended c1Prompt c1Doc).1,
    ((c1FlagResetAmended c1Prompt c1Doc).2.2.2 c1Flag rfl).1,
    ((c1FlagResetAmended c1Prompt c1Doc).2.2.2 c1Flag rfl).2,
    ((c1FlagResetAmended c1Prompt c1Doc).2.2.1 c1Root rfl).1,
    (c1FlagResetAmended c1Prompt c1Doc).2.1⟩

/-- Claim C2: the completion callback that Run and RunContext install is
the package-level completer, and it returns the empty suggestion list on
every document; findSuggestions is on no path from the loop entry. -/
theorem c2InstalledCompleterEmpty :
    (∀ (Ctx : Type) (co : CobraPrompt) (ctx : Ctx),
      (runContext co ctx).complFn = completer)
    ∧ ∀ d : Document, completer d = [] := by
  refine ⟨fun _ _ _ => rfl, fun d => ?_⟩
  unfold completer FilterHasPrefix filterSuggestions
  split <;> rfl

def c3Get : CommandNode :=
  CommandNode.mk "get" "Get things" false [] [] [] false []

def c3Root : CommandNode :=
  CommandNode.mk "root" "root command" false [] [] [] false [c3Get]

def c3PromptOn : CobraPrompt :=
  { basePrompt c3Root with showHiddenCommands := true }

def c3PromptOff : CobraPrompt := basePrompt c3Root

def c3Doc : Document := { currentLine := "", wordBeforeCursor := "" }

/-- Claim C3, evaluation at the failing input: the resolved node has one
visible child, yet with the show-hidden-commands toggle enabled the
resolver suggests nothing at all, and with the toggle off it suggests the
child; the source condition inverts the toggle instead of widening it. -/
theorem c3HiddenToggleInverted :
    c3Get.hidden = false
    ∧ c3PromptOn.showHiddenCommands = true
    ∧ resolvedCommand c3PromptOn c3Doc = c3Root
    ∧ (findSuggestions c3PromptOn c3Doc).1 = []
    ∧ (findSuggestions c3PromptOff c3Doc).1 =
        [{ text := "get", description := "Get things" }] :=
  ⟨rfl, rfl, rfl, rfl, rfl⟩

/-- Claim C4: with no custom suggestion filter configured, every
suggestion a resolution call returns has the word fragment before the
cursor as a case-insensitive leading piece of its text. -/
theorem c4DefaultFilterKeepsTypedFragment (co : CobraPrompt) (d : Document)
    (hf : co.suggestionFilter = none) :
    ∀ s ∈ (findSuggestions co d).1,
      strStartsWith (goToUpper s.text) (goToUpper d.wordBeforeCursor) = true := by
  intro s hs
  simp only [findSuggestions, hf] at hs
  exact mem_FilterHasPrefix _ _ _ hs

def c4Get : CommandNode :=
  CommandNode.mk "get" "Get things" false [] [] [] false []

def c4Root : CommandNode :=
  CommandNode.mk "root" "root command" false [] [] [] false [c4Get]

def c4Prompt : CobraPrompt := basePrompt c4Root

def c4Doc : Document := { currentLine := "g", wordBeforeCursor := "g" }

/-- Claim C4, witness: on the line g the resolver suggests get, and the
theorem yields that GET has G as a leading piece. -/
theorem c4Witness :
    ({ text := "get", description := "Get things" } : Suggest) ∈
      (findSuggestions c4Prompt c4Doc).1
    ∧ strStartsWith (goToUpper "get") (goToUpper "g") = true := by
  have hlist : (findSuggestions c4Prompt c4Doc).1 =
      [{ text := "get", description := "Get things" }] := rfl
  have hmem : ({ text := "get", description := "Get things" } : Suggest) ∈
      (findSuggestions c4Prompt c4Doc).1 := by
    rw [hlist]
    exact List.mem_singleton.mpr rfl
  exact ⟨hmem, c4DefaultFilterKeepsTypedFragment c4Prompt c4Doc rfl _ hmem⟩

/-- Claim C5, evaluation: every Executor run restores the terminal
attributes first and consists of nothing but that restore, plus the demo
task on the literal input test; no tokenize step and no dispatch step ever
appears, so the submitted line is never handed to the command tree. -/
theorem c5ExecutorNeverDispatches :
    (∀ input : String,
      executorTrace input = [ExecStep.restoreTermios]
      ∨ executorTrace input =
          [ExecStep.restoreTermios, ExecStep.startDemoTask])
    ∧ (∀ input : String,
        (executorTrace input).head? = some ExecStep.restoreTermios)
    ∧ executorTrace "exit" = [ExecStep.restoreTermios] := by
  refine ⟨fun input => ?_, fun input => ?_, rfl⟩
  · unfold executorTrace
    split
    · right
      rfl
    · left
      rfl
  · unfold executorTrace
    split <;> rfl

/-- Steps that report an error, invoke the configured error handler, or
terminate the process. -/
def isErrorHandlingStep : ExecStep → Bool
  | .reportError _ => true
  | .callOnError => true
  | .exitProcess _ => true
  | _ => false

/-- Claim C6, evaluation: no Executor run contains an error report, a
call of the configured handler, or a process exit; in particular a line
matching no command produces only the terminal restore. -/
theorem c6NoErrorHandlingEverRuns :
    (∀ input : String,
      (executorTrace input).all (fun s => !isErrorHandlingStep s) = true)
    ∧ executorTrace "nosuchcmd" = [ExecStep.restoreTermios] := by
  refine ⟨fun input => ?_, rfl⟩
  unfold executorTrace
  split <;> rfl

/-- Claim C7, evaluation: the two specified examples hold, and on the
input consisting of run and a bare double quote the stripping step hits
the out-of-range slice and the tokenizer panics instead of keeping the
quote as a literal token. -/
theorem c7TokenizerExamplesAndPanic :
    parseArgsWithQuotes "run \"a b\" c" = some ["run", "a b", "c"]
    ∧ parseArgsWithQuotes "run \"unterminated" = some ["run", "\"unterminated"]
    ∧ parseArgsWithQuotes "run \"" = none :=
  ⟨by decide, by decide, by decide⟩

/-- Claim C8: resolution is total by construction and never propagates
the unknown-command condition: when Find reports the error the resolver
keeps the root, when Find succeeds the resolver uses the found node, and
when the first token of the line names no child of the root the resolver
works on the root. -/
theorem c8ResolutionFallsBackToRoot (co : CobraPrompt) (d : Document) :
    (∀ e : Unit,
      cobraFind co.rootCmd (fields d.currentLine) = Except.error e →
        resolvedCommand co d = co.rootCmd)
    ∧ (∀ found rest,
        cobraFind co.rootCmd (fields d.currentLine) = Except.ok (found, rest) →
          resolvedCommand co d = found)
    ∧ (∀ t rest, fields d.currentLine = t :: rest →
        findNext co.rootCmd t = none → resolvedCommand co d = co.rootCmd) := by
  refine ⟨?_, ?_, ?_⟩
  · intro e he
    unfold resolvedCommand
    rw [he]
  · intro found rest hok
    unfold resolvedCommand
    rw [hok]
  · intro t rest ht hn
    unfold resolvedCommand cobraFind
    rw [ht]
    simp only [innerfind, hn]
    by_cases hc :
        (!false && !co.rootCmd.children.isEmpty && !(t :: rest).isEmpty) = true
    · rw [if_pos hc]
    · rw [if_neg hc]

def c8Get : CommandNode :=
  CommandNode.mk "get" "Get things" false [] [] [] false []

def c8Root : CommandNode :=
  CommandNode.mk "root" "root command" false [] [] [] false [c8Get]

def c8Prompt : CobraPrompt := basePrompt c8Root

def c8Doc : Document := { currentLine := "nope", wordBeforeCursor := "nope" }

/-- Claim C8, witness: the line nope names no child of the root, and the
resolver falls back to the root node. -/
theorem c8Witness :
    fields c8Doc.currentLine = ["nope"]
    ∧ findNext c8Prompt.rootCmd "nope" = none
    ∧ resolvedCommand c8Prompt c8Doc = c8Prompt.rootCmd :=
  ⟨rfl, rfl,
    (c8ResolutionFallsBackToRoot c8Prompt c8Doc).2.2 "nope" [] rfl rfl⟩

/-- Claim C9: on the input of run followed by a bare double quote the
match list ends with the one-character quote match, the stripping slice
is out of range there (the modelled panic), and the whole tokenizer run
panics instead of returning tokens. -/
theorem c9BareQuotePanics :
    goMatches ("run \"".data) = [['r', 'u', 'n'], ['"']]
    ∧ stripQuotes ['"'] = none
    ∧ parseArgsWithQuotes "run \"" = none :=
  ⟨by decide, by decide, by decide⟩

/-- Claim C10: RunContext never reads its context parameter: over any
context type, any two context values produce the same prompt session, and
Run is RunContext at the nil context. -/
theorem c10ContextIgnored :
    ∀ (Ctx : Type) (co : CobraPrompt) (a b : Ctx),
      runContext co a = runContext co b ∧ run co = runContext co a :=
  fun _ _ _ _ => ⟨rfl, rfl⟩

end Cobraprompt
